import Mathlib

/-!
Verification development for the tj-scraper repository.

The Python sources under src/tj_scraper are embedded shallowly: pure
functions become Lean functions, the sqlite cache becomes an explicit list
of rows, exceptions become Except values, and the asynchronous discovery
loop becomes explicit state passing (the per-probe candidate loop is
sequential in the source as well).

The repository snapshot contains an older src/tj_scraper/process.py
(ProcessNumber, to_number, make_cnj_code, advance) while download.py,
cache.py, cli.py, webapp.py and the test-suite import a newer process
module (CNJProcessNumber, CNJNumberCombinations, JudicialSegment,
to_cnj_number, make_cnj_number_str, TJ with name and endpoints) that is
not part of the snapshot.  Definitions for the missing module are
modelled from the natural-language specification (and from the
test-suite where it pins behaviour) and are marked as such in their
doc comments.
-/

namespace TJScraper

/-! ## Zero padding (Python format specifier 0Nd) -/

/-- Python f-string padding such as number:06 : decimal representation,
left-padded with zeros to the requested minimum width. -/
def padZero (width n : Nat) : String :=
  let s := toString n
  String.mk (List.replicate (width - s.length) '0') ++ s

/-! ## The old number codec, embedded from src/tj_scraper/process.py -/

/-- ProcessNumber from src/tj_scraper/process.py (NamedTuple with five
integer fields; the check digits are stored, not derived). -/
structure ProcessNumber where
  number : Nat
  digits : Nat
  year : Nat
  tr_code : Nat
  source_unit : Nat
deriving DecidableEq, Repr

/-- make_cnj_code from src/tj_scraper/process.py line 127:
f-string with widths 06, 02, 04, literal segment 8, 02, 04.
Note the sequential-number field is padded to width 6, not 7. -/
def make_cnj_code (n : ProcessNumber) : String :=
  padZero 6 n.number ++ "-" ++ padZero 2 n.digits ++ "." ++ padZero 4 n.year
    ++ ".8." ++ padZero 2 n.tr_code ++ "." ++ padZero 4 n.source_unit

/-- Numeric value of a list of decimal digit characters. -/
def digitsVal (cs : List Char) : Nat :=
  cs.foldl (fun acc c => acc * 10 + (c.toNat - '0'.toNat)) 0

/-- to_number from src/tj_scraper/process.py lines 73-83: re.fullmatch of
the 25-character pattern (7 digits) - (2 digits) any (4 digits) any 8 any
(2 digits) . (4 digits).  The three inner separators are unescaped dots in
the original regex, so they match any character except a newline; only the
final dot is escaped.  A failed match raises InvalidProcessNumber, which is
modelled as none.  (Python's d-class also accepts non-ASCII decimal digits;
the repository only ever feeds ASCII strings, and the model uses ASCII
digits.) -/
def to_number (s : String) : Option ProcessNumber :=
  match s.data with
  | [n1, n2, n3, n4, n5, n6, n7, '-', d1, d2, s1,
     y1, y2, y3, y4, s2, '8', s3, t1, t2, '.', u1, u2, u3, u4] =>
    if ([n1, n2, n3, n4, n5, n6, n7, d1, d2, y1, y2, y3, y4,
         t1, t2, u1, u2, u3, u4].all Char.isDigit
        && s1 != '\n' && s2 != '\n' && s3 != '\n') then
      some ⟨digitsVal [n1, n2, n3, n4, n5, n6, n7], digitsVal [d1, d2],
            digitsVal [y1, y2, y3, y4], digitsVal [t1, t2],
            digitsVal [u1, u2, u3, u4]⟩
    else
      none
  | _ => none

/-! ## The newer number codec (missing from the snapshot) -/

/-- Modelled from the spec: JudicialSegment, the enumerated judicial
segment of a CNJ number.  The repository only ever uses JEDFT (state
justice, CNJ segment digit 8); the other segment values never occur in
the sources, so only JEDFT is modelled. -/
inductive JudicialSegment where
  | JEDFT
deriving DecidableEq, Repr

/-- Modelled from the spec: the decimal digit of a judicial segment. -/
def JudicialSegment.digit : JudicialSegment → Nat
  | .JEDFT => 8

/-- Modelled from the spec: CNJProcessNumber, the structured process
number of the newer process module (missing from the snapshot).  Its
check digits are derived, never stored (spec section 3: check_digits
always recomputed, never trusted from parsed input). -/
structure CNJProcessNumber where
  sequential_number : Nat
  year : Nat
  segment : JudicialSegment
  tr_code : Nat
  source_unit : Nat
deriving DecidableEq, Repr

/-- Modelled from the spec: the integer M of CheckDigits(n), the
concatenation of the fields as decimal strings of widths 7 (sequential),
4 (year), 1 (segment), 2 (court), 4 (source unit). -/
def cnj_concat (n : CNJProcessNumber) : Nat :=
  (((n.sequential_number * 10 ^ 4 + n.year) * 10
      + n.segment.digit) * 10 ^ 2 + n.tr_code) * 10 ^ 4 + n.source_unit

/-- Modelled from the spec: CheckDigits(n) = 98 - (M * 100 mod 97). -/
def check_digits (n : CNJProcessNumber) : Nat :=
  98 - cnj_concat n * 100 % 97

/-- Modelled from the spec: Format / make_cnj_number_str of the newer
process module (missing from the snapshot): zero-pads each field to its
width in the pattern NNNNNNN-DD.YYYY.S.CC.UUUU (sequential number padded
to 7 digits) and inserts the recomputed check digits. -/
def make_cnj_number_str (n : CNJProcessNumber) : String :=
  padZero 7 n.sequential_number ++ "-" ++ padZero 2 (check_digits n) ++ "."
    ++ padZero 4 n.year ++ "." ++ toString n.segment.digit ++ "."
    ++ padZero 2 n.tr_code ++ "." ++ padZero 4 n.source_unit

/-- Modelled from the spec: Parse / to_cnj_number of the newer process
module (missing from the snapshot): matches the fixed 25-character
pattern NNNNNNN-DD.YYYY.S.CC.UUUU; the two check digits are read but
discarded, not validated (spec section 4.1).  The segment digit must be
8 (JEDFT), the only segment appearing in the repository; parsing fails
with InvalidProcessNumber (modelled as none) on any mismatch. -/
def to_cnj_number (s : String) : Option CNJProcessNumber :=
  match s.data with
  | [n1, n2, n3, n4, n5, n6, n7, '-', d1, d2, '.',
     y1, y2, y3, y4, '.', '8', '.', t1, t2, '.', u1, u2, u3, u4] =>
    if [n1, n2, n3, n4, n5, n6, n7, d1, d2, y1, y2, y3, y4,
        t1, t2, u1, u2, u3, u4].all Char.isDigit then
      some ⟨digitsVal [n1, n2, n3, n4, n5, n6, n7],
            digitsVal [y1, y2, y3, y4], .JEDFT,
            digitsVal [t1, t2], digitsVal [u1, u2, u3, u4]⟩
    else
      none
  | _ => none

/-! ## Decoded JSON values (json.loads results) -/

/-- A decoded JSON value as produced by json.loads: string, integer
number, boolean, null, array or object.  (Float numbers never occur in
the repository's responses and are not modelled.) -/
inductive JSON where
  | str (s : String)
  | num (n : Int)
  | bool (b : Bool)
  | null
  | arr (elems : List JSON)
  | obj (fields : List (String × JSON))

mutual

/-- Structural equality of decoded JSON values (Python ==). -/
def beqJSON : JSON → JSON → Bool
  | .str a, .str b => a == b
  | .num a, .num b => a == b
  | .bool a, .bool b => a == b
  | .null, .null => true
  | .arr a, .arr b => beqJSONList a b
  | .obj a, .obj b => beqJSONObj a b
  | _, _ => false

/-- Elementwise structural equality of JSON arrays. -/
def beqJSONList : List JSON → List JSON → Bool
  | [], [] => true
  | a :: as, b :: bs => beqJSON a b && beqJSONList as bs
  | _, _ => false

/-- Entrywise structural equality of JSON objects. -/
def beqJSONObj : List (String × JSON) → List (String × JSON) → Bool
  | [], [] => true
  | (k, v) :: as, (l, w) :: bs => k == l && beqJSON v w && beqJSONObj as bs
  | _, _ => false

end

instance : BEq JSON := ⟨beqJSON⟩

/-- A process record as handed around by the repository: the field list
of a decoded JSON object (Mapping str to ProcessField). -/
abbrev ProcessJSON := List (String × JSON)

/-- An ASCII single-quote character (Python repr quoting). -/
def singleQuote : String := String.mk [Char.ofNat 39]

mutual

/-- Python repr of a decoded JSON value, used by str() on non-string
values.  Quoting of special characters inside string literals is
simplified to plain single quotes; the repository never exercises it. -/
def pyRepr : JSON → String
  | .str s => singleQuote ++ s ++ singleQuote
  | .num n => toString n
  | .bool true => "True"
  | .bool false => "False"
  | .null => "None"
  | .arr es => "[" ++ pyReprList es ++ "]"
  | .obj fs => "\x7b" ++ pyReprObj fs ++ "\x7d"

/-- Comma-separated Python repr of list elements. -/
def pyReprList : List JSON → String
  | [] => ""
  | [e] => pyRepr e
  | e :: es => pyRepr e ++ ", " ++ pyReprList es

/-- Comma-separated Python repr of dict entries. -/
def pyReprObj : List (String × JSON) → String
  | [] => ""
  | [(k, v)] => singleQuote ++ k ++ singleQuote ++ ": " ++ pyRepr v
  | (k, v) :: fs =>
      singleQuote ++ k ++ singleQuote ++ ": " ++ pyRepr v ++ ", "
        ++ pyReprObj fs

end

/-- Python str() of a decoded JSON value: identity on strings, repr
otherwise. -/
def pyStr : JSON → String
  | .str s => s
  | j => pyRepr j

/-- Python exceptions raised by the embedded code paths. -/
inductive PyError where
  | unknownTJResponse
  | assertionError
  | invalidProcessNumber
  | keyError
  | notImplementedError
  | attributeError
  | typeError
deriving DecidableEq, Repr

/-! ## The response classifier, embedded from src/tj_scraper/download.py -/

/-- FetchFailReason from src/tj_scraper/download.py lines 100-107. -/
inductive FetchFailReason where
  | CAPTCHA
  | FILTERED
  | INVALID
  | NOT_FOUND
  | UNSUPPORTED
deriving DecidableEq, Repr

/-- FetchResult = FetchFailReason or a process JSON value. -/
abbrev FetchResult := FetchFailReason ⊕ JSON

/-- CacheState from src/tj_scraper/cache.py lines 20-31. -/
inductive CacheState where
  | CACHED
  | INVALID
  | NOT_CACHED
deriving DecidableEq, Repr

/-- One row of the sqlite Processos table (cache.py lines 56-66): primary
key id, cache_state, subject and the stored process JSON.  The json
column stores json.dumps(item); since that serialization is injective the
row keeps the decoded object itself, and byte-identity of rows is
equality of this structure. -/
structure DBRow where
  id : String
  cache_state : CacheState
  subject : Option JSON
  json : ProcessJSON

/-- DBProcess from src/tj_scraper/cache.py lines 34-41. -/
structure DBProcess where
  id_ : String
  cache_state : CacheState
  subject : Option JSON
  json : ProcessJSON

/-- REAL_ID_FIELD from src/tj_scraper/process.py line 51. -/
def REAL_ID_FIELD : String := "codProc"

/-- get_process_id from src/tj_scraper/process.py lines 54-56:
str(process[codProc]); a missing key raises KeyError (none). -/
def get_process_id (process : ProcessJSON) : Option String :=
  (List.lookup REAL_ID_FIELD process).map pyStr

/-- save_to_cache from src/tj_scraper/cache.py lines 153-175: computes
the db id of the item, then runs INSERT OR IGNORE of
(id, cache_state, subject, json); when a row with that primary key
already exists the statement is a no-op, otherwise the row is appended.
A missing cache file is created empty on demand, so the database is
always a list of rows here. -/
def save_to_cache (item : ProcessJSON) (db : List DBRow) (state : CacheState) :
    Except PyError (List DBRow) :=
  match get_process_id item with
  | none => .error .keyError
  | some item_db_id =>
      if db.any (fun r => r.id == item_db_id) then .ok db
      else .ok (db ++ [⟨item_db_id, state, List.lookup "txtAssunto" item, item⟩])

/-- load_metadata from src/tj_scraper/cache.py lines 288-306: the
id to cache_state mapping over all rows (ids are unique, being the
primary key). -/
def load_metadata (db : List DBRow) : List (String × CacheState) :=
  db.map fun r => (r.id, r.cache_state)

/-- Filtered from src/tj_scraper/cache.py lines 311-319.  The Python
sets are modelled as duplicate-free lists built with List.insert;
only membership matters. -/
structure Filtered where
  not_cached : List Nat
  cached : List CNJProcessNumber
  invalid : List CNJProcessNumber
deriving DecidableEq, Repr

/-- The cache_states dict comprehension of filter_cached (cache.py lines
339-345), looked up at one sequential number: among the metadata entries
whose id parses to a CNJ number with that sequential number, a
sequential number in the requested list and the requested year, the
last one wins (later dict-comprehension entries overwrite earlier
ones). -/
def cache_state_for (states : List (String × CacheState))
    (sequential_numbers : List Nat) (year seq : Nat) :
    Option (CNJProcessNumber × CacheState) :=
  (states.reverse.filterMap fun kv =>
      match to_cnj_number kv.1 with
      | some cnj =>
          if cnj.sequential_number ∈ sequential_numbers ∧ cnj.year = year then
            some (cnj, kv.2)
          else none
      | none => none).find? fun e => e.1.sequential_number == seq

/-- The loop body of filter_cached (cache.py lines 347-362): one
sequential number is classified by the cache_states entry found for it;
a missing entry is the dict-get default (a dummy number with state
NOT_CACHED), so both land in not_cached. -/
def filter_cached_step (rep : Nat → Option (CNJProcessNumber × CacheState))
    (acc : Filtered) (seq : Nat) : Filtered :=
  match rep seq with
  | some (cnj, .CACHED) => { acc with cached := acc.cached.insert cnj }
  | some (cnj, .INVALID) => { acc with invalid := acc.invalid.insert cnj }
  | some (_, .NOT_CACHED) => { acc with not_cached := acc.not_cached.insert seq }
  | none => { acc with not_cached := acc.not_cached.insert seq }

/-- filter_cached from src/tj_scraper/cache.py lines 322-364: classifies
each requested sequential number from the cached metadata, keyed on the
sequential-number and year portion of each stored id.  The dict
comprehension parses every metadata id, so a single malformed id raises
InvalidProcessNumber. -/
def filter_cached (sequential_numbers : List Nat) (year : Nat)
    (db : List DBRow) : Except PyError Filtered :=
  let states := load_metadata db
  if states.any (fun kv => (to_cnj_number kv.1).isNone) then
    .error .invalidProcessNumber
  else
    .ok (sequential_numbers.foldl
      (filter_cached_step (cache_state_for states sequential_numbers year))
      ⟨[], [], []⟩)

/-- restore_json_for_ids from src/tj_scraper/cache.py lines 178-223:
the json column of every row (in table order) whose id parses to a CNJ
number contained in ids and whose row passes the filter function.
is_id_in_list parses each row id with to_cnj_number, so a malformed id
raises InvalidProcessNumber. -/
def restore_json_for_ids (db : List DBRow) (ids : List CNJProcessNumber)
    (filter_function : DBProcess → Bool) : Except PyError (List ProcessJSON) :=
  if db.any (fun r => (to_cnj_number r.id).isNone) then
    .error .invalidProcessNumber
  else
    .ok ((db.filter fun r =>
      (match to_cnj_number r.id with
       | some cnj => decide (cnj ∈ ids)
       | none => false)
      && filter_function ⟨r.id, r.cache_state, r.subject, r.json⟩).map (·.json))

/-! ## The combination enumerator (missing from the snapshot) -/

/-- Modelled from the spec: the court (TJ) configuration of the newer
process module (missing from the snapshot), reduced to the fields the
enumerator consumes: the court code and the list of source-unit codes,
ordered ascending (spec section 3 invariant). -/
structure TJ where
  code : Nat
  source_units : List Nat

/-- CNJNumberCombination from src/tj_scraper/download.py lines 231-238:
a combination of values for one specific sequential number. -/
structure CNJNumberCombination where
  sequential_number : Nat
  year : Nat
  segment : JudicialSegment
  tj : TJ

/-- Modelled from the spec: CNJNumberCombinations, the search-space
descriptor (sequence_start, sequence_end inclusive, court, year,
segment) of the newer process module (missing from the snapshot). -/
structure CNJNumberCombinations where
  sequence_start : Nat
  sequence_end : Nat
  tj : TJ
  year : Nat
  segment : JudicialSegment

/-- Modelled from the spec: Next(n, court) (spec section 4.1): advance
to the next source unit in the court's ascending order; when the units
are exhausted, reset to the first unit and increment the sequential
number; not-ok (none) when the sequential number would exceed 999999. -/
def next_cnj (units : List Nat) (n : CNJProcessNumber) :
    Option CNJProcessNumber :=
  match units.indexOf? n.source_unit with
  | none => none
  | some i =>
      match units[i + 1]? with
      | some u => some { n with source_unit := u }
      | none =>
          if n.sequential_number + 1 ≤ 999999 then
            some { n with sequential_number := n.sequential_number + 1,
                          source_unit := units.headD 0 }
          else none

/-- Modelled from the spec: the enumeration loop of section 4.2,
starting from a number and repeatedly applying Next until the sequential
number exceeds sequence_end.  The sequence is finite; the explicit fuel
argument only makes the recursion structural and is chosen large enough
below (adequacy is proved in the enumerator lemmas). -/
def enumerateFuel (units : List Nat) (send : Nat) :
    Nat → CNJProcessNumber → List CNJProcessNumber
  | 0, _ => []
  | fuel + 1, n =>
      if send < n.sequential_number then []
      else
        n :: (match next_cnj units n with
              | none => []
              | some m => enumerateFuel units send fuel m)

/-- Modelled from the spec: Enumerate(CombinationSpec) (spec section
4.2): the lazy finite sequence obtained by starting at
(sequence_start, first source unit) and repeatedly applying Next until
the sequential number exceeds sequence_end.  A pure function of the
spec's fields: re-iterating yields the identical sequence. -/
def CNJNumberCombinations.enumerate (c : CNJNumberCombinations) :
    List CNJProcessNumber :=
  match c.tj.source_units with
  | [] => []
  | u0 :: _ =>
      enumerateFuel c.tj.source_units c.sequence_end
        ((c.sequence_end + 1 - c.sequence_start) * c.tj.source_units.length + 1)
        ⟨c.sequence_start, c.year, c.segment, c.tj.code, u0⟩

/-! ## The discovery engine, embedded from src/tj_scraper/download.py -/

/-- classify_and_cache from src/tj_scraper/download.py lines 241-290:
Invalid and NotFound responses are cached with state INVALID under the
candidate's canonical number string; captcha and unsupported results are
not cached; a process payload is cached with state CACHED and then
demoted to FILTERED when the caller's filter rejects it;
a FILTERED input raises NotImplementedError. -/
def classify_and_cache (fetch_result : FetchResult)
    (cnj_number : CNJProcessNumber) (db : List DBRow)
    (filter_function : ProcessJSON → Bool) :
    Except PyError (FetchResult × List DBRow) :=
  match fetch_result with
  | .inl .INVALID => do
      let db2 ← save_to_cache [(REAL_ID_FIELD, .str (make_cnj_number_str cnj_number))]
        db .INVALID
      .ok (.inl .INVALID, db2)
  | .inl .NOT_FOUND => do
      let db2 ← save_to_cache [(REAL_ID_FIELD, .str (make_cnj_number_str cnj_number))]
        db .INVALID
      .ok (.inl .NOT_FOUND, db2)
  | .inl .CAPTCHA => .ok (.inl .CAPTCHA, db)
  | .inl .UNSUPPORTED => .ok (.inl .UNSUPPORTED, db)
  | .inl .FILTERED => .error .notImplementedError
  | .inr (.obj fs) => do
      let db2 ← save_to_cache fs db .CACHED
      if filter_function fs then .ok (.inr (.obj fs), db2)
      else .ok (.inl .FILTERED, db2)
  | .inr _ =>
      -- a non-mapping success payload: subscripting it in get_process_id
      -- raises TypeError in Python
      .error .typeError

/-- The loop exit condition of try_combinations (download.py lines
337-341): break when the result is not a FetchFailReason, or when it is
FILTERED. -/
def breakCondition : FetchResult → Bool
  | .inr _ => true
  | .inl .FILTERED => true
  | .inl _ => false

/-- The candidate loop of try_combinations (download.py lines 323-341),
with the per-candidate HTTP fetch abstracted as an oracle from candidate
number to fetch result.  Returns the last classified result (none when
the guess list is empty), the cache and the list of candidates that were
actually fetched, in order. -/
def try_combinations_loop (oracle : CNJProcessNumber → Except PyError FetchResult)
    (filter_function : ProcessJSON → Bool) :
    List CNJProcessNumber → List DBRow →
    Except PyError (Option FetchResult × List DBRow × List CNJProcessNumber)
  | [], db => .ok (none, db, [])
  | guess :: rest, db => do
      let fetched ← oracle guess
      let (result, db2) ← classify_and_cache fetched guess db filter_function
      if breakCondition result then
        .ok (some result, db2, [guess])
      else do
        let (res, db3, more) ← try_combinations_loop oracle filter_function rest db2
        .ok (some (res.getD result), db3, guess :: more)

/-- try_combinations from src/tj_scraper/download.py lines 293-345:
iterates the sub-enumeration of one sequential number (the combinations
with sequence_start = sequence_end = that number) and asserts that at
least one candidate was processed. -/
def try_combinations (oracle : CNJProcessNumber → Except PyError FetchResult)
    (combination : CNJNumberCombination)
    (filter_function : ProcessJSON → Bool) (db : List DBRow) :
    Except PyError (FetchResult × List DBRow × List CNJProcessNumber) := do
  let test_range := CNJNumberCombinations.enumerate
    ⟨combination.sequential_number, combination.sequential_number,
     combination.tj, combination.year, combination.segment⟩
  let (res, db2, fetched) ← try_combinations_loop oracle filter_function
    test_range db
  match res with
  | none => .error .assertionError
  | some r => .ok (r, db2, fetched)

/-- discover_processes from src/tj_scraper/download.py lines 390-428:
one probe per requested sequential number; successful payloads are
written to the sink batch by batch in probe order (the asyncio.gather
batches preserve input order, so consecutive batches concatenate), and
the return value counts the successes.  The model threads the cache
state sequentially through the probes and also returns the full list of
fetched candidates. -/
def discover_processes (oracle : CNJProcessNumber → Except PyError FetchResult)
    (sequential_numbers : List Nat) (year : Nat) (segment : JudicialSegment)
    (tj : TJ) (filter_function : ProcessJSON → Bool) (db : List DBRow) :
    Except PyError (Nat × List ProcessJSON × List DBRow × List CNJProcessNumber) :=
  match sequential_numbers with
  | [] => .ok (0, [], db, [])
  | number :: rest => do
      let (r, db2, fetched) ← try_combinations oracle
        ⟨number, year, segment, tj⟩ filter_function db
      let (total, sink, db3, fetched2) ← discover_processes oracle rest year
        segment tj filter_function db2
      -- summarize_batch_results only collects dict() results into
      -- summary.processes; every other outcome is dropped from the sink
      match r with
      | .inr (.obj fs) => .ok (1 + total, fs :: sink, db3, fetched ++ fetched2)
      | _ => .ok (total, sink, db3, fetched ++ fetched2)

/-- write_cached_to_sink from src/tj_scraper/download.py lines 70-97:
filters the requested sequence range against the cache, appends to the
sink the cached records that pass the caller's filter, and returns the
sink content together with the not-cached sequential numbers. -/
def write_cached_to_sink (combinations : CNJNumberCombinations)
    (db : List DBRow) (filter_function : ProcessJSON → Bool) :
    Except PyError (List ProcessJSON × List Nat) := do
  let sequence := List.range' combinations.sequence_start
    (combinations.sequence_end + 1 - combinations.sequence_start)
  let filtered ← filter_cached sequence combinations.year db
  let cached_items ← restore_json_for_ids db filtered.cached
    (fun item => filter_function item.json)
  .ok (cached_items, filtered.not_cached)

/-- discover_with_json_api from src/tj_scraper/download.py lines
431-487: without force_fetch, first writes the cached records passing
the filter to the sink and keeps only the not-cached sequential numbers
as probes; with force_fetch, probes the whole range.  Returns the sink
content, the final cache, the fetched candidates and the probe list
handed to discover_processes. -/
def discover_with_json_api (oracle : CNJProcessNumber → Except PyError FetchResult)
    (combinations : CNJNumberCombinations) (db : List DBRow)
    (filter_function : ProcessJSON → Bool) (force_fetch : Bool) :
    Except PyError
      (List ProcessJSON × List DBRow × List CNJProcessNumber × List Nat) := do
  let (sink0, not_cached_numbers) ←
    if force_fetch then
      .ok (([] : List ProcessJSON),
        List.range' combinations.sequence_start
          (combinations.sequence_end + 1 - combinations.sequence_start))
    else
      write_cached_to_sink combinations db filter_function
  let (_total, sink1, db2, fetched) ← discover_processes oracle
    not_cached_numbers combinations.year combinations.segment combinations.tj
    filter_function db
  .ok (sink0 ++ sink1, db2, fetched, not_cached_numbers)

/-! ## The subject filter, embedded from src/tj_scraper/process.py and
src/tj_scraper/download.py -/

/-- Python str.lower restricted to ASCII (the repository only filters
ASCII keywords); Char.toLower is exactly the ASCII case map. -/
def pyLower (s : String) : String := String.mk (s.data.map Char.toLower)

/-- Python str.upper restricted to ASCII. -/
def pyUpper (s : String) : String := String.mk (s.data.map Char.toUpper)

/-- Python substring containment (needle in haystack). -/
def pyContains (hay needle : String) : Bool :=
  decide (needle.data <:+: hay.data)

/-- has_words_in_subject from src/tj_scraper/process.py lines 206-214:
reads txtAssunto with default Sem Assunto, joins a list subject with
spaces via str(), lower-cases it, and checks whether any lower-cased
word occurs in it.  A subject that is neither a string nor a list has
no lower() method, so Python raises AttributeError there. -/
def has_words_in_subject (data : ProcessJSON) (words : List String) :
    Except PyError Bool :=
  match (List.lookup "txtAssunto" data).getD (.str "Sem Assunto") with
  | .str s =>
      .ok (words.any fun word => pyContains (pyLower s) (pyLower word))
  | .arr es =>
      .ok (words.any fun word =>
        pyContains (pyLower (String.intercalate " " (es.map pyStr)))
          (pyLower word))
  | _ => .error .attributeError

/-- The filter function built by processes_by_subject
(src/tj_scraper/download.py lines 547-570): has_words_in_subject when
the keyword collection is non-empty, and the constant True filter
otherwise. -/
def processes_by_subject_filter (words : List String) (item : ProcessJSON) :
    Except PyError Bool :=
  if words.isEmpty then .ok true else has_words_in_subject item words

/-! # Theorems -/

/-- Characters: lowering after uppering is lowering (ASCII case maps of
the Lean core, matching Python str casing on ASCII). -/
theorem char_toNat_ofNat (n : Nat) (h : n.isValidChar) :
    (Char.ofNat n).toNat = n := by
  simp [Char.ofNat, h, Char.ofNatAux, Char.toNat]
  rfl

/-- Lowering is invariant under prior uppering, characterwise. -/
theorem toLower_toUpper (c : Char) : c.toUpper.toLower = c.toLower := by
  by_cases h1 : c.toNat ≥ 97 ∧ c.toNat ≤ 122
  · have hUp : c.toUpper = Char.ofNat (c.toNat - 32) := by
      simp only [Char.toUpper]
      rw [if_pos h1]
    have hvn : (c.toNat - 32).isValidChar := Or.inl (by omega)
    have hN : c.toUpper.toNat = c.toNat - 32 := by
      rw [hUp, char_toNat_ofNat _ hvn]
    have hLow : c.toUpper.toLower = Char.ofNat (c.toUpper.toNat + 32) := by
      simp only [Char.toLower]
      rw [if_pos (by omega)]
    rw [hLow, hN]
    have h2 : c.toNat - 32 + 32 = c.toNat := by omega
    rw [h2, Char.ofNat_toNat]
    simp only [Char.toLower]
    rw [if_neg (by omega)]
  · have hUp : c.toUpper = c := by
      simp only [Char.toUpper]
      rw [if_neg h1]
    rw [hUp]

/-- Unfolding lemma: the BEq instance on JSON is beqJSON. -/
theorem beqJSON_def (a b : JSON) : (a == b) = beqJSON a b := rfl

/-- In a duplicate-free list, the index found for the element at
position i is i itself. -/
theorem nodup_indexOf?_getElem : ∀ (l : List Nat), l.Nodup →
    ∀ (i : Nat) (hi : i < l.length), l.indexOf? l[i] = some i := by
  intro l
  induction l with
  | nil => intro _ i hi; cases hi
  | cons a t ih =>
      intro hu i hi
      rcases List.nodup_cons.mp hu with ⟨ha, ht⟩
      cases i with
      | zero => simp [List.indexOf?, List.findIdx?_cons]
      | succ j =>
          have hj : j < t.length := by simpa using hi
          have hne : a ≠ t[j] := fun hEq => ha (hEq ▸ List.getElem_mem hj)
          have hrec := ih ht j hj
          simp only [List.indexOf?] at hrec ⊢
          simp [List.findIdx?_cons, hne, List.findIdx?_succ, hrec]

/-- The enumeration loop stops as soon as the sequential number exceeds
sequence_end, whatever fuel remains. -/
theorem enumerateFuel_stop (units : List Nat) (send : Nat) (fuel : Nat)
    (n : CNJProcessNumber) (h : send < n.sequential_number) :
    enumerateFuel units send fuel n = [] := by
  cases fuel <;> simp [enumerateFuel, h]

/-- The enumeration loop, started anywhere inside the court's
duplicate-free unit list with sufficient fuel, produces the remaining
units of the current sequential number followed by the full unit list
for every later sequential number up to sequence_end. -/
theorem enumerateFuel_eq (units : List Nat) (send : Nat) (hu : units.Nodup)
    (hsend : send ≤ 999999) :
    ∀ (fuel : Nat) (n : CNJProcessNumber) (i : Nat) (hi : i < units.length),
      n.source_unit = units[i] →
      n.sequential_number ≤ send →
      (send - n.sequential_number) * units.length + (units.length - i) + 1
          ≤ fuel + 1 →
      enumerateFuel units send fuel n
        = ((units.drop i).map (fun u => { n with source_unit := u }))
          ++ (List.range' (n.sequential_number + 1)
                (send - n.sequential_number)).flatMap
              (fun s => units.map
                (fun u => { n with sequential_number := s, source_unit := u })) := by
  intro fuel
  induction fuel with
  | zero =>
      intro n i hi hsu hseq hfuel
      exfalso
      have hx := hfuel
      generalize (send - n.sequential_number) * units.length = K at hx
      omega
  | succ f ih =>
      intro n i hi hsu hseq hfuel
      simp only [enumerateFuel]
      rw [if_neg (by omega)]
      have hidx : units.indexOf? n.source_unit = some i := by
        rw [hsu]; exact nodup_indexOf?_getElem units hu i hi
      by_cases hlast : i + 1 < units.length
      · have hget : units[i + 1]? = some units[i + 1] :=
          List.getElem?_eq_getElem hlast
        have hnext : next_cnj units n
            = some { n with source_unit := units[i + 1] } := by
          simp [next_cnj, hidx, hget]
        rw [hnext]
        have hfuel2 : (send - n.sequential_number) * units.length
            + (units.length - (i + 1)) + 1 ≤ f + 1 := by
          have hx := hfuel
          generalize (send - n.sequential_number) * units.length = K at hx ⊢
          omega
        rw [show (match some { n with source_unit := units[i + 1] } with
              | none => ([] : List CNJProcessNumber)
              | some m => enumerateFuel units send f m)
            = enumerateFuel units send f { n with source_unit := units[i + 1] }
          from rfl]
        rw [ih { n with source_unit := units[i + 1] } (i + 1) hlast rfl hseq
          hfuel2]
        rw [List.drop_eq_getElem_cons hi]
        simp only [List.map_cons, List.cons_append]
        rw [← hsu]
      · have hgetnone : units[i + 1]? = none := by
          rw [List.getElem?_eq_none]
          omega
        by_cases hB : n.sequential_number < send
        · have h999 : n.sequential_number + 1 ≤ 999999 := by omega
          have hnext : next_cnj units n
              = some ⟨n.sequential_number + 1, n.year, n.segment, n.tr_code,
                  units.headD 0⟩ := by
            simp [next_cnj, hidx, hgetnone, h999]
          rw [hnext]
          have hlen0 : 0 < units.length := by omega
          have hhead : units.headD 0 = units[0] := by
            cases units with
            | nil => cases hlen0
            | cons a t => rfl
          have hk : (send - n.sequential_number) * units.length
              = (send - (n.sequential_number + 1)) * units.length
                + units.length := by
            have h1 : send - n.sequential_number
                = (send - (n.sequential_number + 1)) + 1 := by omega
            rw [h1, Nat.succ_mul]
          have hlen1 : units.length - i = 1 := by omega
          have hfuel3 : (send - (n.sequential_number + 1)) * units.length
              + (units.length - 0) + 1 ≤ f + 1 := by
            have hx := hfuel
            rw [hk, hlen1] at hx
            rw [Nat.sub_zero]
            omega
          rw [List.drop_eq_getElem_cons hi,
            List.drop_eq_nil_of_le (show units.length ≤ i + 1 by omega)]
          have hr : send - n.sequential_number
              = (send - (n.sequential_number + 1)) + 1 := by omega
          rw [hr, List.range'_succ, List.flatMap_cons]
          rw [show (match some (⟨n.sequential_number + 1, n.year, n.segment,
                  n.tr_code, units.headD 0⟩ : CNJProcessNumber) with
                | none => ([] : List CNJProcessNumber)
                | some m => enumerateFuel units send f m)
              = enumerateFuel units send f ⟨n.sequential_number + 1, n.year,
                  n.segment, n.tr_code, units.headD 0⟩
            from rfl]
          rw [ih ⟨n.sequential_number + 1, n.year, n.segment, n.tr_code,
            units.headD 0⟩ 0 hlen0 hhead hB hfuel3]
          simp only [List.drop_zero, List.map_cons, List.map_nil,
            List.cons_append, List.nil_append]
          rw [← hsu]
        · have htail :
              (match next_cnj units n with
               | none => ([] : List CNJProcessNumber)
               | some m => enumerateFuel units send f m) = [] := by
            by_cases h999 : n.sequential_number + 1 ≤ 999999
            · have hnext : next_cnj units n
                  = some ⟨n.sequential_number + 1, n.year, n.segment,
                      n.tr_code, units.headD 0⟩ := by
                simp [next_cnj, hidx, hgetnone, h999]
              rw [hnext]
              exact enumerateFuel_stop units send f _
                (show send < n.sequential_number + 1 by omega)
            · have hnext : next_cnj units n = none := by
                simp [next_cnj, hidx, hgetnone, h999]
              rw [hnext]
          rw [htail]
          rw [List.drop_eq_getElem_cons hi,
            List.drop_eq_nil_of_le (show units.length ≤ i + 1 by omega)]
          have hr : send - n.sequential_number = 0 := by omega
          rw [hr]
          simp only [List.range'_zero, List.flatMap_nil, List.map_cons,
            List.map_nil, List.append_nil]
          rw [← hsu]

/-- The sequential-number by source-unit product list has no
duplicates when both coordinate lists are duplicate-free. -/
theorem product_nodup (year : Nat) (seg : JudicialSegment) (code : Nat)
    (units : List Nat) (hu : units.Nodup) :
    ∀ ss : List Nat, ss.Nodup →
      (ss.flatMap (fun s => units.map
        (fun u => (⟨s, year, seg, code, u⟩ : CNJProcessNumber)))).Nodup := by
  intro ss
  induction ss with
  | nil => intro _; simp
  | cons a rest ih =>
      intro hss
      rcases List.nodup_cons.mp hss with ⟨ha, hrest⟩
      rw [List.flatMap_cons, List.nodup_append]
      refine ⟨List.Nodup.map (fun u1 u2 h =>
        congrArg CNJProcessNumber.source_unit h) hu, ih hrest, ?_⟩
      intro x hx1 hx2
      rcases List.mem_map.mp hx1 with ⟨u, hu1, rfl⟩
      rcases List.mem_flatMap.mp hx2 with ⟨s, hs, hxs⟩
      rcases List.mem_map.mp hxs with ⟨u2, hu2, hEq⟩
      have : s = a := congrArg CNJProcessNumber.sequential_number hEq
      exact ha (this ▸ hs)

/-- Length of a flatMap whose blocks all have the same length. -/
theorem length_flatMap_const {α β : Type} (l : List α) (g : α → List β)
    (k : Nat) (h : ∀ a, (g a).length = k) :
    (l.flatMap g).length = l.length * k := by
  induction l with
  | nil => simp
  | cons a t ih =>
      rw [List.flatMap_cons, List.length_append, ih, h a, List.length_cons,
        Nat.succ_mul, Nat.add_comm]

/-- Claim C1.  For a combination spec with sequence_start less than or
equal to sequence_end (within the 999999 cap of Next) and a court whose
source-unit list is non-empty and ascending, enumerating from
(sequence_start, first source unit) by repeatedly applying the advance
step yields exactly the product list: for each sequential number in
ascending order, all source units in ascending code order — hence
(sequence_end - sequence_start + 1) * number-of-units process numbers
with no duplicates.  The enumeration is a pure function of the spec's
fields, so re-iterating the same spec yields the identical sequence. -/
theorem C1_enumerator_complete (c : CNJNumberCombinations)
    (hasc : c.tj.source_units.Chain' (· < ·))
    (hne : c.tj.source_units ≠ [])
    (hrange : c.sequence_start ≤ c.sequence_end)
    (hcap : c.sequence_end ≤ 999999) :
    c.enumerate = (List.range' c.sequence_start
        (c.sequence_end - c.sequence_start + 1)).flatMap
        (fun s => c.tj.source_units.map
          (fun u => (⟨s, c.year, c.segment, c.tj.code, u⟩ : CNJProcessNumber)))
      ∧ c.enumerate.length
          = (c.sequence_end - c.sequence_start + 1) * c.tj.source_units.length
      ∧ c.enumerate.Nodup := by
  have hu : c.tj.source_units.Nodup :=
    ((List.chain'_iff_pairwise).mp hasc).imp (fun h => Nat.ne_of_lt h)
  have hmain : c.enumerate = (List.range' c.sequence_start
      (c.sequence_end - c.sequence_start + 1)).flatMap
      (fun s => c.tj.source_units.map
        (fun u => (⟨s, c.year, c.segment, c.tj.code, u⟩ : CNJProcessNumber))) := by
    unfold CNJNumberCombinations.enumerate
    cases hul : c.tj.source_units with
    | nil => exact absurd hul hne
    | cons u0 rest =>
        rw [hul] at hu
        dsimp only
        have hlen0 : 0 < (u0 :: rest).length := by simp
        have hfuel : (c.sequence_end - c.sequence_start) * (u0 :: rest).length
            + ((u0 :: rest).length - 0) + 1
            ≤ ((c.sequence_end + 1 - c.sequence_start) * (u0 :: rest).length
                + 1) + 1 := by
          rw [show c.sequence_end + 1 - c.sequence_start
              = (c.sequence_end - c.sequence_start) + 1 by omega,
            Nat.succ_mul, Nat.sub_zero]
          omega
        rw [enumerateFuel_eq (u0 :: rest) c.sequence_end hu hcap
          ((c.sequence_end + 1 - c.sequence_start) * (u0 :: rest).length + 1)
          ⟨c.sequence_start, c.year, c.segment, c.tj.code, u0⟩ 0 hlen0 rfl
          hrange hfuel]
        rw [show c.sequence_end - c.sequence_start + 1
            = (c.sequence_end - c.sequence_start) + 1 from rfl,
          List.range'_succ, List.flatMap_cons]
        simp only [List.drop_zero]
  refine ⟨hmain, ?_, ?_⟩
  · rw [hmain, length_flatMap_const _ _ c.tj.source_units.length
      (fun s => by rw [List.length_map]), List.length_range']
  · rw [hmain]
    exact product_nodup c.year c.segment c.tj.code c.tj.source_units hu
      _ (List.nodup_range' _ _)

/-- Witness for claim C1: the spec with range 1..2 over the two-unit
court list [1, 3] enumerates the 4-element product with no
duplicates. -/
theorem C1_enumerator_complete_witness :
    (CNJNumberCombinations.mk 1 2 (TJ.mk 19 [1, 3]) 2021 .JEDFT).enumerate
        = (List.range' 1 2).flatMap (fun s => List.map
            (fun u => (⟨s, 2021, .JEDFT, 19, u⟩ : CNJProcessNumber)) [1, 3])
      ∧ (CNJNumberCombinations.mk 1 2 (TJ.mk 19 [1, 3]) 2021
          .JEDFT).enumerate.length = 4
      ∧ (CNJNumberCombinations.mk 1 2 (TJ.mk 19 [1, 3]) 2021
          .JEDFT).enumerate.Nodup :=
  C1_enumerator_complete _ (by simp) (by simp) (by norm_num) (by norm_num)

/-! ## Claim C2: the response classifier -/

/-- Claim C3 (counterexample).  With an oracle whose every response is
captcha-blocked, probing the two candidates (1, 2021, JEDFT, 19, 1) and
(1, 2021, JEDFT, 19, 3) over an empty cache fetches BOTH candidates:
the fetched list of the loop is the whole two-element candidate list
although the first candidate's response was classified CaptchaBlocked,
refuting that the sub-enumeration stops immediately. -/
theorem C3_captcha_counterexample :
    try_combinations_loop (fun _ => .ok (.inl .CAPTCHA)) (fun _ => true)
        [⟨1, 2021, .JEDFT, 19, 1⟩, ⟨1, 2021, .JEDFT, 19, 3⟩] []
      = .ok (some (.inl .CAPTCHA), [],
          [⟨1, 2021, .JEDFT, 19, 1⟩, ⟨1, 2021, .JEDFT, 19, 3⟩])
      ∧ (⟨1, 2021, .JEDFT, 19, 3⟩ : CNJProcessNumber)
          ≠ ⟨1, 2021, .JEDFT, 19, 1⟩ :=
  ⟨rfl, by decide⟩

/-- Claim C3 (amended).  When a candidate's response is classified
CaptchaBlocked, nothing is written to the cache for that candidate, but
the engine does NOT stop the sub-enumeration: the loop continues with
the remaining candidates over the unchanged cache, prepending the
captcha-blocked candidate to the fetched list; the probe's disposition
is CaptchaBlocked (Unresolved) only when that candidate was the last
one processed. -/
theorem C3_captcha_behavior
    (oracle : CNJProcessNumber → Except PyError FetchResult)
    (filter_function : ProcessJSON → Bool) (g : CNJProcessNumber)
    (gs : List CNJProcessNumber) (db : List DBRow)
    (h : oracle g = .ok (.inl .CAPTCHA)) :
    classify_and_cache (.inl .CAPTCHA) g db filter_function
        = .ok (.inl .CAPTCHA, db)
      ∧ try_combinations_loop oracle filter_function (g :: gs) db
          = (try_combinations_loop oracle filter_function gs db).map
              (fun x => (some (x.1.getD (.inl .CAPTCHA)), x.2.1, g :: x.2.2))
      ∧ (gs = [] → try_combinations_loop oracle filter_function (g :: gs) db
          = .ok (some (.inl .CAPTCHA), db, [g])) := by
  refine ⟨rfl, ?_, ?_⟩
  · cases hgs : try_combinations_loop oracle filter_function gs db <;>
      simp [try_combinations_loop, h, classify_and_cache, breakCondition, hgs,
        Except.map, Bind.bind, Except.bind]
  · rintro rfl
    simp [try_combinations_loop, h, classify_and_cache, breakCondition,
      Bind.bind, Except.bind]

/-- Witness for claim C3: the amended theorem applied to a concrete
captcha-blocked candidate that is the last of its probe. -/
theorem C3_captcha_behavior_witness :
    classify_and_cache (.inl .CAPTCHA) ⟨1, 2021, .JEDFT, 19, 1⟩ [] (fun _ => true)
        = .ok (.inl .CAPTCHA, [])
      ∧ try_combinations_loop (fun _ => .ok (.inl .CAPTCHA)) (fun _ => true)
            [⟨1, 2021, .JEDFT, 19, 1⟩] []
          = (try_combinations_loop (fun _ => .ok (.inl .CAPTCHA)) (fun _ => true)
                [] []).map
              (fun x => (some (x.1.getD (.inl .CAPTCHA)), x.2.1,
                (⟨1, 2021, .JEDFT, 19, 1⟩ : CNJProcessNumber) :: x.2.2))
      ∧ (([] : List CNJProcessNumber) = [] →
          try_combinations_loop (fun _ => .ok (.inl .CAPTCHA)) (fun _ => true)
              [⟨1, 2021, .JEDFT, 19, 1⟩] []
            = .ok (some (.inl .CAPTCHA), [], [⟨1, 2021, .JEDFT, 19, 1⟩])) :=
  C3_captcha_behavior (fun _ => .ok (.inl .CAPTCHA)) (fun _ => true)
    ⟨1, 2021, .JEDFT, 19, 1⟩ [] [] rfl

/-! ## Claim C6: the filter_cached partition -/

/-- Membership in the three accumulator fields after the filter_cached
fold: each field grows exactly by the classifications the rep function
assigns to the processed sequential numbers. -/
theorem filter_cached_step_foldl_mem
    (rep : Nat → Option (CNJProcessNumber × CacheState)) (seqs : List Nat) :
    ∀ acc : Filtered,
      (∀ s : Nat,
        s ∈ (seqs.foldl (filter_cached_step rep) acc).not_cached
          ↔ s ∈ acc.not_cached
            ∨ (s ∈ seqs ∧ (rep s = none ∨ ∃ c, rep s = some (c, .NOT_CACHED))))
      ∧ (∀ c : CNJProcessNumber,
        c ∈ (seqs.foldl (filter_cached_step rep) acc).cached
          ↔ c ∈ acc.cached ∨ ∃ s ∈ seqs, rep s = some (c, .CACHED))
      ∧ (∀ c : CNJProcessNumber,
        c ∈ (seqs.foldl (filter_cached_step rep) acc).invalid
          ↔ c ∈ acc.invalid ∨ ∃ s ∈ seqs, rep s = some (c, .INVALID)) := by
  induction seqs with
  | nil => intro acc; simp
  | cons s0 rest ih =>
      intro acc
      obtain ⟨ih1, ih2, ih3⟩ := ih (filter_cached_step rep acc s0)
      rw [List.foldl_cons] at *
      refine ⟨fun s => ?_, fun c => ?_, fun c => ?_⟩
      · rw [ih1]
        rcases hrep : rep s0 with _ | ⟨cnj, st⟩
        · simp only [filter_cached_step, hrep, List.mem_insert_iff,
            List.mem_cons]
          constructor
          · rintro ((rfl | h) | h)
            · exact Or.inr ⟨Or.inl rfl, Or.inl hrep⟩
            · exact Or.inl h
            · exact Or.inr ⟨Or.inr h.1, h.2⟩
          · rintro (h | ⟨(rfl | hs), hst⟩)
            · exact Or.inl (Or.inr h)
            · exact Or.inl (Or.inl rfl)
            · exact Or.inr ⟨hs, hst⟩
        · cases st <;>
            simp only [filter_cached_step, hrep, List.mem_insert_iff,
              List.mem_cons]
          · constructor
            · rintro (h | h)
              · exact Or.inl h
              · exact Or.inr ⟨Or.inr h.1, h.2⟩
            · rintro (h | ⟨(rfl | hs), hst⟩)
              · exact Or.inl h
              · rcases hst with hst | ⟨c, hst⟩ <;> rw [hrep] at hst <;>
                  cases hst
              · exact Or.inr ⟨hs, hst⟩
          · constructor
            · rintro (h | h)
              · exact Or.inl h
              · exact Or.inr ⟨Or.inr h.1, h.2⟩
            · rintro (h | ⟨(rfl | hs), hst⟩)
              · exact Or.inl h
              · rcases hst with hst | ⟨c, hst⟩ <;> rw [hrep] at hst <;>
                  cases hst
              · exact Or.inr ⟨hs, hst⟩
          · constructor
            · rintro ((rfl | h) | h)
              · exact Or.inr ⟨Or.inl rfl, Or.inr ⟨cnj, hrep⟩⟩
              · exact Or.inl h
              · exact Or.inr ⟨Or.inr h.1, h.2⟩
            · rintro (h | ⟨(rfl | hs), hst⟩)
              · exact Or.inl (Or.inr h)
              · exact Or.inl (Or.inl rfl)
              · exact Or.inr ⟨hs, hst⟩
      · rw [ih2]
        rcases hrep : rep s0 with _ | ⟨cnj, st⟩
        · simp only [filter_cached_step, hrep, List.mem_cons]
          constructor
          · rintro (h | ⟨s, hs, hst⟩)
            · exact Or.inl h
            · exact Or.inr ⟨s, Or.inr hs, hst⟩
          · rintro (h | ⟨s, (rfl | hs), hst⟩)
            · exact Or.inl h
            · rw [hrep] at hst; cases hst
            · exact Or.inr ⟨s, hs, hst⟩
        · cases st <;>
            simp only [filter_cached_step, hrep, List.mem_insert_iff,
              List.mem_cons]
          · constructor
            · rintro ((rfl | h) | ⟨s, hs, hst⟩)
              · exact Or.inr ⟨s0, Or.inl rfl, hrep⟩
              · exact Or.inl h
              · exact Or.inr ⟨s, Or.inr hs, hst⟩
            · rintro (h | ⟨s, (rfl | hs), hst⟩)
              · exact Or.inl (Or.inr h)
              · rw [hrep] at hst
                injection hst with hst
                injection hst with hst1 hst2
                exact Or.inl (Or.inl hst1.symm)
              · exact Or.inr ⟨s, hs, hst⟩
          · constructor
            · rintro (h | ⟨s, hs, hst⟩)
              · exact Or.inl h
              · exact Or.inr ⟨s, Or.inr hs, hst⟩
            · rintro (h | ⟨s, (rfl | hs), hst⟩)
              · exact Or.inl h
              · rw [hrep] at hst; injection hst with hst; injection hst with h1 h2; cases h2
              · exact Or.inr ⟨s, hs, hst⟩
          · constructor
            · rintro (h | ⟨s, hs, hst⟩)
              · exact Or.inl h
              · exact Or.inr ⟨s, Or.inr hs, hst⟩
            · rintro (h | ⟨s, (rfl | hs), hst⟩)
              · exact Or.inl h
              · rw [hrep] at hst; injection hst with hst; injection hst with h1 h2; cases h2
              · exact Or.inr ⟨s, hs, hst⟩
      · rw [ih3]
        rcases hrep : rep s0 with _ | ⟨cnj, st⟩
        · simp only [filter_cached_step, hrep, List.mem_cons]
          constructor
          · rintro (h | ⟨s, hs, hst⟩)
            · exact Or.inl h
            · exact Or.inr ⟨s, Or.inr hs, hst⟩
          · rintro (h | ⟨s, (rfl | hs), hst⟩)
            · exact Or.inl h
            · rw [hrep] at hst; cases hst
            · exact Or.inr ⟨s, hs, hst⟩
        · cases st <;>
            simp only [filter_cached_step, hrep, List.mem_insert_iff,
              List.mem_cons]
          · constructor
            · rintro (h | ⟨s, hs, hst⟩)
              · exact Or.inl h
              · exact Or.inr ⟨s, Or.inr hs, hst⟩
            · rintro (h | ⟨s, (rfl | hs), hst⟩)
              · exact Or.inl h
              · rw [hrep] at hst; injection hst with hst; injection hst with h1 h2; cases h2
              · exact Or.inr ⟨s, hs, hst⟩
          · constructor
            · rintro ((rfl | h) | ⟨s, hs, hst⟩)
              · exact Or.inr ⟨s0, Or.inl rfl, hrep⟩
              · exact Or.inl h
              · exact Or.inr ⟨s, Or.inr hs, hst⟩
            · rintro (h | ⟨s, (rfl | hs), hst⟩)
              · exact Or.inl (Or.inr h)
              · rw [hrep] at hst
                injection hst with hst
                injection hst with hst1 hst2
                exact Or.inl (Or.inl hst1.symm)
              · exact Or.inr ⟨s, hs, hst⟩
          · constructor
            · rintro (h | ⟨s, hs, hst⟩)
              · exact Or.inl h
              · exact Or.inr ⟨s, Or.inr hs, hst⟩
            · rintro (h | ⟨s, (rfl | hs), hst⟩)
              · exact Or.inl h
              · rw [hrep] at hst; injection hst with hst; injection hst with h1 h2; cases h2
              · exact Or.inr ⟨s, hs, hst⟩

/-- A cache_states entry found for a sequential number carries a CNJ
number with exactly that sequential number (the find? predicate). -/
theorem cache_state_for_seq {states : List (String × CacheState)}
    {seqs : List Nat} {year s : Nat} {c : CNJProcessNumber} {st : CacheState}
    (h : cache_state_for states seqs year s = some (c, st)) :
    c.sequential_number = s := by
  have hp := List.find?_some h
  simpa using hp

/-- Claim C6.  For every finite list of sequential numbers and every
year, a successful filter_cached returns three result sets that
partition the input: every input sequential number lands in exactly one
of not_cached (as itself), cached or invalid (as the sequential-number
field of a returned CNJ number), the three accountings are pairwise
exclusive, and the sets contain nothing derived from numbers outside
the input (the backward direction of the first equivalence). -/
theorem C6_filter_cached_partition (seqs : List Nat) (year : Nat)
    (db : List DBRow) (F : Filtered)
    (h : filter_cached seqs year db = .ok F) :
    (∀ s, s ∈ seqs ↔ (s ∈ F.not_cached
        ∨ (∃ c ∈ F.cached, c.sequential_number = s)
        ∨ (∃ c ∈ F.invalid, c.sequential_number = s)))
      ∧ (∀ s, ¬(s ∈ F.not_cached ∧ ∃ c ∈ F.cached, c.sequential_number = s))
      ∧ (∀ s, ¬(s ∈ F.not_cached ∧ ∃ c ∈ F.invalid, c.sequential_number = s))
      ∧ (∀ s, ¬((∃ c ∈ F.cached, c.sequential_number = s)
            ∧ ∃ c ∈ F.invalid, c.sequential_number = s)) := by
  unfold filter_cached at h
  dsimp only at h
  split at h
  · cases h
  · injection h with h
    subst h
    obtain ⟨m1, m2, m3⟩ := filter_cached_step_foldl_mem
      (cache_state_for (load_metadata db) seqs year) seqs ⟨[], [], []⟩
    set rep := cache_state_for (load_metadata db) seqs year with hrepdef
    have hnc : ∀ s, s ∈ (seqs.foldl (filter_cached_step rep) ⟨[], [], []⟩).not_cached
        ↔ s ∈ seqs ∧ (rep s = none ∨ ∃ c, rep s = some (c, .NOT_CACHED)) := by
      intro s; rw [m1 s]; simp
    have hc : ∀ c, c ∈ (seqs.foldl (filter_cached_step rep) ⟨[], [], []⟩).cached
        ↔ ∃ s ∈ seqs, rep s = some (c, .CACHED) := by
      intro c; rw [m2 c]; simp
    have hi : ∀ c, c ∈ (seqs.foldl (filter_cached_step rep) ⟨[], [], []⟩).invalid
        ↔ ∃ s ∈ seqs, rep s = some (c, .INVALID) := by
      intro c; rw [m3 c]; simp
    refine ⟨fun s => ⟨fun hs => ?_, fun hs => ?_⟩, fun s ⟨h1, c, hcm, hcs⟩ => ?_,
      fun s ⟨h1, c, hcm, hcs⟩ => ?_, fun s ⟨⟨c, hcm, hcs⟩, c2, him, his⟩ => ?_⟩
    · rcases hrep : rep s with _ | ⟨c, st⟩
      · exact Or.inl ((hnc s).mpr ⟨hs, Or.inl hrep⟩)
      · cases st with
        | CACHED =>
            exact Or.inr (Or.inl ⟨c, (hc c).mpr ⟨s, hs, hrep⟩,
              cache_state_for_seq hrep⟩)
        | INVALID =>
            exact Or.inr (Or.inr ⟨c, (hi c).mpr ⟨s, hs, hrep⟩,
              cache_state_for_seq hrep⟩)
        | NOT_CACHED =>
            exact Or.inl ((hnc s).mpr ⟨hs, Or.inr ⟨c, hrep⟩⟩)
    · rcases hs with hs | ⟨c, hcm, hcs⟩ | ⟨c, hcm, hcs⟩
      · exact ((hnc s).mp hs).1
      · obtain ⟨s1, hs1, hrep1⟩ := (hc c).mp hcm
        have hseq := cache_state_for_seq hrep1
        rw [hcs] at hseq
        rw [hseq]
        exact hs1
      · obtain ⟨s1, hs1, hrep1⟩ := (hi c).mp hcm
        have hseq := cache_state_for_seq hrep1
        rw [hcs] at hseq
        rw [hseq]
        exact hs1
    · obtain ⟨-, hstate⟩ := (hnc s).mp h1
      obtain ⟨s1, hs1, hrep1⟩ := (hc c).mp hcm
      have hseq := cache_state_for_seq hrep1
      rw [hcs] at hseq
      rw [← hseq] at hrep1
      rcases hstate with hst | ⟨c3, hst⟩ <;> rw [hrep1] at hst
      · cases hst
      · injection hst with hst
        injection hst with hst1 hst2
        cases hst2
    · obtain ⟨-, hstate⟩ := (hnc s).mp h1
      obtain ⟨s1, hs1, hrep1⟩ := (hi c).mp hcm
      have hseq := cache_state_for_seq hrep1
      rw [hcs] at hseq
      rw [← hseq] at hrep1
      rcases hstate with hst | ⟨c3, hst⟩ <;> rw [hrep1] at hst
      · cases hst
      · injection hst with hst
        injection hst with hst1 hst2
        cases hst2
    · obtain ⟨s1, hs1, hrep1⟩ := (hc c).mp hcm
      obtain ⟨s2, hs2, hrep2⟩ := (hi c2).mp him
      have hseq1 := cache_state_for_seq hrep1
      have hseq2 := cache_state_for_seq hrep2
      rw [hcs] at hseq1
      rw [his] at hseq2
      rw [← hseq1] at hrep1
      rw [← hseq2] at hrep2
      rw [hrep1] at hrep2
      injection hrep2 with hx
      injection hx with hx1 hx2
      cases hx2

/-- Witness for claim C6: a two-row cache (one CACHED id with
sequential number 1, one INVALID id with sequential number 2) and the
request [1, 2, 3], whose filter_cached hypothesis evaluates by rfl. -/
theorem C6_filter_cached_partition_witness :
    (∀ s, s ∈ [1, 2, 3] ↔ (s ∈ (Filtered.mk [3] [⟨1, 2021, .JEDFT, 19, 1⟩]
          [⟨2, 2021, .JEDFT, 19, 1⟩]).not_cached
        ∨ (∃ c ∈ (Filtered.mk [3] [⟨1, 2021, .JEDFT, 19, 1⟩]
            [⟨2, 2021, .JEDFT, 19, 1⟩]).cached, c.sequential_number = s)
        ∨ (∃ c ∈ (Filtered.mk [3] [⟨1, 2021, .JEDFT, 19, 1⟩]
            [⟨2, 2021, .JEDFT, 19, 1⟩]).invalid, c.sequential_number = s)))
      ∧ (∀ s, ¬(s ∈ (Filtered.mk [3] [⟨1, 2021, .JEDFT, 19, 1⟩]
            [⟨2, 2021, .JEDFT, 19, 1⟩]).not_cached
          ∧ ∃ c ∈ (Filtered.mk [3] [⟨1, 2021, .JEDFT, 19, 1⟩]
            [⟨2, 2021, .JEDFT, 19, 1⟩]).cached, c.sequential_number = s))
      ∧ (∀ s, ¬(s ∈ (Filtered.mk [3] [⟨1, 2021, .JEDFT, 19, 1⟩]
            [⟨2, 2021, .JEDFT, 19, 1⟩]).not_cached
          ∧ ∃ c ∈ (Filtered.mk [3] [⟨1, 2021, .JEDFT, 19, 1⟩]
            [⟨2, 2021, .JEDFT, 19, 1⟩]).invalid, c.sequential_number = s))
      ∧ (∀ s, ¬((∃ c ∈ (Filtered.mk [3] [⟨1, 2021, .JEDFT, 19, 1⟩]
            [⟨2, 2021, .JEDFT, 19, 1⟩]).cached, c.sequential_number = s)
          ∧ ∃ c ∈ (Filtered.mk [3] [⟨1, 2021, .JEDFT, 19, 1⟩]
            [⟨2, 2021, .JEDFT, 19, 1⟩]).invalid, c.sequential_number = s)) :=
  C6_filter_cached_partition [1, 2, 3] 2021
    [⟨"0000001-64.2021.8.19.0001", .CACHED, none, []⟩,
     ⟨"0000002-00.2021.8.19.0001", .INVALID, none, []⟩]
    (Filtered.mk [3] [⟨1, 2021, .JEDFT, 19, 1⟩] [⟨2, 2021, .JEDFT, 19, 1⟩])
    rfl

/-! ## Claim C7: cache write-once -/

/-- Claim C7.  Save is write-once with insert-or-ignore semantics: for
every item and cache state, if a record with the item's canonical id is
already stored then save_to_cache leaves the database unchanged — in
particular the stored row stays byte-identical, whatever the later
call's item content or state argument. -/
theorem C7_save_insert_or_ignore (item : ProcessJSON) (db : List DBRow)
    (state : CacheState) (id : String)
    (hid : get_process_id item = some id)
    (hmem : ∃ r ∈ db, r.id = id) :
    save_to_cache item db state = .ok db := by
  unfold save_to_cache
  rw [hid]
  have hany : db.any (fun r => r.id == id) = true := by
    rcases hmem with ⟨r, hr, hrid⟩
    exact List.any_eq_true.mpr ⟨r, hr, by simp [hrid]⟩
  simp [hany]

/-- Witness for claim C7: saving an item with id X and different content
and state over a database already holding a row with id X returns the
database unchanged. -/
theorem C7_save_insert_or_ignore_witness :
    save_to_cache [(REAL_ID_FIELD, JSON.str "X"), ("txtAssunto", JSON.str "B")]
      [⟨"X", .CACHED, none, [(REAL_ID_FIELD, JSON.str "X")]⟩] .INVALID
    = .ok [⟨"X", .CACHED, none, [(REAL_ID_FIELD, JSON.str "X")]⟩] :=
  C7_save_insert_or_ignore _ _ _ "X" rfl
    ⟨⟨"X", .CACHED, none, [(REAL_ID_FIELD, JSON.str "X")]⟩, by simp, rfl⟩

/-! ## Claim C10: the subject filter -/

/-- Lowering a string is invariant under prior uppering. -/
theorem pyLower_pyUpper (s : String) : pyLower (pyUpper s) = pyLower s := by
  unfold pyLower pyUpper
  simp only [List.map_map]
  congr 1
  exact List.map_congr_left fun c _ => toLower_toUpper c

/-- An any-scan over upper-cased words equals the scan over the words
when the predicate is case-stable. -/
theorem any_comp_pyUpper (f : String → Bool) (words : List String)
    (hf : ∀ w, f (pyUpper w) = f w) :
    words.any (f ∘ pyUpper) = words.any f := by
  induction words with
  | nil => rfl
  | cons w ws ih => simp [List.any_cons, hf w, ih]

/-- Claim C10.  The subject filter matches case-insensitively (replacing
every keyword by its upper-cased form does not change the result) against
txtAssunto, defaulting to Sem Assunto when the field is absent; with the
empty word list it returns False for every process; and
processes_by_subject installs the always-true filter for an empty keyword
list, so the public interface accepts every record instead of rejecting
all. -/
theorem C10_subject_filter :
    (∀ (data : ProcessJSON) (words : List String),
        has_words_in_subject data (words.map pyUpper)
          = has_words_in_subject data words)
      ∧ (∀ (data : ProcessJSON) (words : List String),
          List.lookup "txtAssunto" data = none →
            has_words_in_subject data words
              = has_words_in_subject
                  (("txtAssunto", JSON.str "Sem Assunto") :: data) words)
      ∧ (∀ (data : ProcessJSON) (b : Bool),
          has_words_in_subject data [] = .ok b → b = false)
      ∧ (∀ item : ProcessJSON, processes_by_subject_filter [] item = .ok true) := by
  refine ⟨fun data words => ?_, fun data words h => ?_, fun data b h => ?_,
    fun item => rfl⟩
  · unfold has_words_in_subject
    cases hx : (List.lookup "txtAssunto" data).getD (.str "Sem Assunto")
    case str s =>
      simp only [List.any_map]
      exact congrArg Except.ok
        (any_comp_pyUpper _ _ fun w => by rw [pyLower_pyUpper])
    case arr es =>
      simp only [List.any_map]
      exact congrArg Except.ok
        (any_comp_pyUpper _ _ fun w => by rw [pyLower_pyUpper])
    all_goals rfl
  · unfold has_words_in_subject
    rw [h]
    simp [List.lookup]
  · unfold has_words_in_subject at h
    cases hx : (List.lookup "txtAssunto" data).getD (.str "Sem Assunto") <;>
      rw [hx] at h <;> simp_all

/-- Witness for claim C10: the defaulting part applied to the empty
record (no txtAssunto field), and the empty-word-list part applied to
the empty record with result false. -/
theorem C10_subject_filter_witness :
    (has_words_in_subject [] ["x"]
        = has_words_in_subject [("txtAssunto", JSON.str "Sem Assunto")] ["x"])
      ∧ false = false :=
  ⟨C10_subject_filter.2.1 [] ["x"] rfl, C10_subject_filter.2.2.1 [] false rfl⟩

/-! ## Claims C4, C5, C9: the number codec -/

/-- Claim C4 (code_bug evidence).  The round trip Parse after Format is
not the identity on the code as written: make_cnj_code pads the
sequential-number field to width 6 while to_number demands exactly 7
digits, so to_number rejects every formatted valid number.  At the
failing input ProcessNumber(0, 54, 2021, 19, 3) the formatted string is
the 24-character 000000-54.2021.8.19.0003 and parsing it raises
InvalidProcessNumber (none).  The repository's own test
test_make_cnj_code expects the 7-digit padding 0000000-01.2021.8.19.0003
for ProcessNumber(0, 1, 2021, 19, 3), which the code also contradicts. -/
theorem C4_roundtrip_fails :
    make_cnj_code ⟨0, 54, 2021, 19, 3⟩ = "000000-54.2021.8.19.0003"
      ∧ to_number (make_cnj_code ⟨0, 54, 2021, 19, 3⟩) = none
      ∧ make_cnj_code ⟨0, 1, 2021, 19, 3⟩ ≠ "0000000-01.2021.8.19.0003" := by
  decide

/-- Claim C5.  Format (make_cnj_number_str, modelled from the spec after
the newer process module missing from the snapshot) zero-pads each field
to its width and inserts the recomputed check digits; on the two scenario
inputs it produces exactly the strings the spec demands. -/
theorem C5_format_examples :
    make_cnj_number_str ⟨0, 2021, .JEDFT, 19, 3⟩ = "0000000-54.2021.8.19.0003"
      ∧ make_cnj_number_str ⟨1234, 2021, .JEDFT, 19, 45⟩
          = "0001234-42.2021.8.19.0045" := by
  decide

/-- Claim C9 (counterexample).  The spec claims CheckDigits(n) lies in
[0, 97), but its own formula 98 - (M * 100 mod 97) evaluates to 98 at
the process number (0, 2021, JEDFT, 19, 53), because M is divisible
by 97 there. -/
theorem C9_range_counterexample :
    check_digits ⟨0, 2021, .JEDFT, 19, 53⟩ = 98
      ∧ ¬ check_digits ⟨0, 2021, .JEDFT, 19, 53⟩ < 97 := by
  decide

/-- Claim C9 (amended).  For every process number n, CheckDigits(n) =
98 - (M * 100 mod 97) lies in the interval [2, 98]: the modulus is at
most 96, so the subtraction stays between 2 and 98 (and both bounds are
attained; 98 is attained by the counterexample above). -/
theorem C9_check_digits_bounds (n : CNJProcessNumber) :
    2 ≤ check_digits n ∧ check_digits n ≤ 98 := by
  have h : cnj_concat n * 100 % 97 < 97 :=
    Nat.mod_lt _ (by norm_num)
  unfold check_digits
  omega

/-- Claim C8.  When the cache classifies every sequential number of the
requested range as Cached or Invalid (filter_cached leaves not_cached
empty), discover_with_json_api without force_fetch hands an empty probe
list to discover_processes, fetches no candidate at all (the fetched
list is empty, i.e. zero network requests), leaves the cache unchanged,
and writes to the sink exactly the cached records whose id parses into
the cached set and whose payload satisfies the caller's filter — the
records the first run accepted or filtered into the cache. -/
theorem C8_cached_rerun (oracle : CNJProcessNumber → Except PyError FetchResult)
    (combinations : CNJNumberCombinations) (db : List DBRow)
    (filter_function : ProcessJSON → Bool) (F : Filtered)
    (hfc : filter_cached (List.range' combinations.sequence_start
        (combinations.sequence_end + 1 - combinations.sequence_start))
        combinations.year db = .ok F)
    (hnc : F.not_cached = []) :
    discover_with_json_api oracle combinations db filter_function false
      = .ok (((db.filter fun r =>
            (match to_cnj_number r.id with
             | some cnj => decide (cnj ∈ F.cached)
             | none => false)
            && filter_function r.json).map (·.json)), db, [], []) := by
  have hguard : ((load_metadata db).any fun kv => (to_cnj_number kv.1).isNone)
      = false := by
    unfold filter_cached at hfc
    dsimp only at hfc
    by_cases hg : ((load_metadata db).any fun kv => (to_cnj_number kv.1).isNone)
        = true
    · rw [if_pos hg] at hfc
      cases hfc
    · exact eq_false_of_ne_true hg
  have hguard2 : (db.any fun r => (to_cnj_number r.id).isNone) = false := by
    simpa [load_metadata] using hguard
  unfold discover_with_json_api write_cached_to_sink
  dsimp only
  rw [if_neg Bool.false_ne_true]
  simp only [Bind.bind, Except.bind]
  rw [hfc]
  dsimp only
  unfold restore_json_for_ids
  rw [hguard2]
  dsimp only
  rw [hnc]
  rw [if_neg Bool.false_ne_true]
  dsimp only
  rw [show discover_processes oracle [] combinations.year combinations.segment
      combinations.tj filter_function db = .ok (0, [], db, []) from rfl]
  dsimp only
  rw [List.append_nil]

/-- Witness for claim C8: a fully classified two-row cache over the
range 1..2; the rerun issues no fetch, returns the unchanged cache, an
empty probe list, and sinks exactly the one cached record passing the
filter. -/
theorem C8_cached_rerun_witness :
    discover_with_json_api (fun _ => .ok (.inl .CAPTCHA))
        (CNJNumberCombinations.mk 1 2 (TJ.mk 19 [1]) 2021 .JEDFT)
        [⟨"0000001-64.2021.8.19.0001", .CACHED, none,
            [("codProc", JSON.str "p1"), ("txtAssunto", JSON.str "furto")]⟩,
         ⟨"0000002-00.2021.8.19.0001", .INVALID, none,
            [("codProc", JSON.str "p2")]⟩]
        (fun _ => true) false
      = .ok ([[("codProc", JSON.str "p1"), ("txtAssunto", JSON.str "furto")]],
          [⟨"0000001-64.2021.8.19.0001", .CACHED, none,
              [("codProc", JSON.str "p1"), ("txtAssunto", JSON.str "furto")]⟩,
           ⟨"0000002-00.2021.8.19.0001", .INVALID, none,
              [("codProc", JSON.str "p2")]⟩], [], []) :=
  C8_cached_rerun (fun _ => .ok (.inl .CAPTCHA))
    (CNJNumberCombinations.mk 1 2 (TJ.mk 19 [1]) 2021 .JEDFT)
    [⟨"0000001-64.2021.8.19.0001", .CACHED, none,
        [("codProc", JSON.str "p1"), ("txtAssunto", JSON.str "furto")]⟩,
     ⟨"0000002-00.2021.8.19.0001", .INVALID, none,
        [("codProc", JSON.str "p2")]⟩]
    (fun _ => true)
    (Filtered.mk [] [⟨1, 2021, .JEDFT, 19, 1⟩] [⟨2, 2021, .JEDFT, 19, 1⟩])
    rfl rfl

end TJScraper
